import Mathlib

/-!
Shallow embedding of the survey backend in `src/main.py` (a Flask + sqlite
application).  Python strings are modelled as lists of characters, JSON
payload values as the inductive `JVal`, and the sqlite table
`survey_responses` as a list of rows together with the `AUTOINCREMENT`
sequence counter (sqlite's `INTEGER PRIMARY KEY AUTOINCREMENT` assigns
`largest id ever used + 1` and the counter survives `DELETE`).
Timestamps are modelled as natural numbers supplied by the caller
(`CURRENT_TIMESTAMP` at insert time).
-/

namespace MySurvey

/-- Python strings, modelled as lists of characters. -/
abbrev PyStr := List Char

/-- Embed a Lean string literal as a Python string. -/
def pstr (s : String) : PyStr := s.data

/-- Decimal rendering of a natural number, as Python `str` produces. -/
def natStr (n : Nat) : PyStr := Nat.toDigits 10 n

/-- Decimal rendering of an integer, as Python `str` produces. -/
def intStr (n : Int) : PyStr :=
  if n < 0 then '-' :: natStr n.natAbs else natStr n.natAbs

/-- The single-quote character (ASCII 39). -/
def squote : Char := Char.ofNat 39

/-- The double-quote character (ASCII 34). -/
def dquote : Char := Char.ofNat 34

/-- The backslash character (ASCII 92). -/
def bslash : Char := Char.ofNat 92

/-- JSON values as delivered by `request.get_json()`.  Numbers are modelled
as integers (the survey client sends integral ratings); floating-point
payload numbers are outside the scope of the claims. -/
inductive JVal : Type where
  | null : JVal
  | bool (b : Bool) : JVal
  | num (n : Int) : JVal
  | str (s : PyStr) : JVal
  | arr (xs : List JVal) : JVal

/-- Python truthiness of a JSON value (`None`, `False`, `0`, `''` and `[]`
are falsy, everything else truthy). -/
def truthy : JVal → Bool
  | .null => false
  | .bool b => b
  | .num n => decide (n ≠ 0)
  | .str s => decide (s ≠ [])
  | .arr xs => !xs.isEmpty

/-- One escaped character of Python `repr` of a string, with quote
character `q`: backslash and the quote are backslash-escaped, newline,
carriage return and tab print as two-character escapes, other control
characters as `\xhh`, all remaining characters stand for themselves. -/
def reprEsc (q : Char) (c : Char) : PyStr :=
  if c = bslash then [bslash, bslash]
  else if c = q then [bslash, q]
  else if c.toNat = 10 then [bslash, 'n']
  else if c.toNat = 13 then [bslash, 'r']
  else if c.toNat = 9 then [bslash, 't']
  else if c.toNat < 32 ∨ c.toNat = 127 then
    [bslash, 'x', Nat.digitChar (c.toNat / 16), Nat.digitChar (c.toNat % 16)]
  else [c]

/-- Python `repr` of a string: single-quoted, unless the string contains a
single quote but no double quote, in which case double-quoted. -/
def strRepr (s : PyStr) : PyStr :=
  let q : Char := if squote ∈ s ∧ dquote ∉ s then dquote else squote
  q :: ((s.map (reprEsc q)).flatten ++ [q])

mutual
/-- Python `repr` of a JSON value. -/
def pyRepr : JVal → PyStr
  | .null => pstr "None"
  | .bool true => pstr "True"
  | .bool false => pstr "False"
  | .num n => intStr n
  | .str s => strRepr s
  | .arr xs => '[' :: (List.intercalate (pstr ", ") (pyReprList xs) ++ [']'])
/-- `repr` of each element of a list of JSON values. -/
def pyReprList : List JVal → List PyStr
  | [] => []
  | v :: vs => pyRepr v :: pyReprList vs
end

/-- Python `str` of a JSON value: the string itself for strings, `repr`
for everything else (which is what `str` produces on `None`, booleans,
integers and lists). -/
def pyStr : JVal → PyStr
  | .str s => s
  | .null => pyRepr .null
  | .bool b => pyRepr (.bool b)
  | .num n => pyRepr (.num n)
  | .arr xs => pyRepr (.arr xs)

/-- A JSON object payload, as an association list (first binding wins,
matching Python dict lookup on well-formed objects). -/
abbrev Payload := List (PyStr × JVal)

/-- `data[k]` / `data.get(k)`: the value bound to key `k`, if present. -/
def pget (data : Payload) (k : PyStr) : Option JVal :=
  (data.find? (fun kv => decide (kv.1 = k))).map (fun kv => kv.2)

/-- `field not in data or not data[field]` from the validation loop in
`submit_survey`: the field is absent, or present with a falsy value
(for the strings and lists this API carries, falsy means empty). -/
def fieldBad (data : Payload) (f : PyStr) : Bool :=
  match pget data f with
  | none => true
  | some v => ! truthy v

/-- The required fields of `submit_survey`, in the order they are
checked. -/
def requiredFields : List PyStr := [pstr "q1", pstr "q2", pstr "q4", pstr "q5"]

/-- `str(data.get(k, ''))`: the string rendering of the value bound to
`k`, or the empty string when absent. -/
def strField (data : Payload) (k : PyStr) : PyStr :=
  match pget data k with
  | none => []
  | some v => pyStr v

/-- `1 if data.get('has_improvements') else 0`. -/
def hasImpFlag (data : Payload) : Nat :=
  match pget data (pstr "has_improvements") with
  | none => 0
  | some v => if truthy v then 1 else 0

/-- Extract the string elements of a JSON array; `none` when some element
is not a string (Python `','.join` raises `TypeError` there). -/
def strElems : List JVal → Option (List PyStr)
  | [] => some []
  | .str s :: vs => (strElems vs).map (fun ss => s :: ss)
  | .null :: _ => none
  | .bool _ :: _ => none
  | .num _ :: _ => none
  | .arr _ :: _ => none

/-- The `q2` normalization in `submit_survey`: a list is joined with
commas (`','.join(data['q2'])`), anything else is passed through
`str`. -/
def q2ToString : JVal → Option PyStr
  | .arr xs => (strElems xs).map (fun ss => [(',' : Char)].intercalate ss)
  | .null => some (pyStr .null)
  | .bool b => some (pyStr (.bool b))
  | .num n => some (pyStr (.num n))
  | .str s => some (pyStr (.str s))

/-- One row of the `survey_responses` table.  `has_improvements` is the
stored 0/1 integer; `timestamp` is the server-side insertion time. -/
structure SurveyRow : Type where
  id : Nat
  q1 : PyStr
  q2 : PyStr
  portal_rating : PyStr
  llm_rating : PyStr
  q4 : PyStr
  q5 : PyStr
  has_improvements : Nat
  improvements : PyStr
  timestamp : Nat
deriving DecidableEq

/-- The database: the stored rows in insertion order, plus the
`AUTOINCREMENT` sequence counter (`sqlite_sequence`), which survives
`DELETE FROM survey_responses`. -/
structure DB : Type where
  rows : List SurveyRow
  seq : Nat
deriving DecidableEq

/-- The freshly initialised database of `init_db`. -/
def initDb : DB := ⟨[], 0⟩

/-- Outcome of `submit_survey`: a 400 validation error with its message,
a 200 success with the new row id (`lastrowid`), or the 500 handler for
exceptions raised inside the endpoint. -/
inductive SubmitOutcome : Type where
  | badRequest (message : PyStr)
  | ok (newId : Nat)
  | serverError
deriving DecidableEq

/-- The `/api/submit` endpoint.  Checks the required fields in order,
normalizes `q2`, coerces every stored field through `str`, and inserts
one row with a fresh `AUTOINCREMENT` id and the current timestamp. -/
def submit_survey (data : Payload) (now : Nat) (db : DB) : SubmitOutcome × DB :=
  match requiredFields.find? (fieldBad data) with
  | some f => (.badRequest (pstr "Missing required field: " ++ f), db)
  | none =>
    match pget data (pstr "q2") with
    | none => (.serverError, db)
    | some v2 =>
      match q2ToString v2 with
      | none => (.serverError, db)
      | some q2s =>
        let row : SurveyRow :=
          { id := db.seq + 1
            q1 := strField data (pstr "q1")
            q2 := q2s
            portal_rating := strField data (pstr "portal_rating")
            llm_rating := strField data (pstr "llm_rating")
            q4 := strField data (pstr "q4")
            q5 := strField data (pstr "q5")
            has_improvements := hasImpFlag data
            improvements := strField data (pstr "improvements")
            timestamp := now }
        (.ok (db.seq + 1), { rows := db.rows ++ [row], seq := db.seq + 1 })

/-- The comparison underlying `ORDER BY timestamp DESC`. -/
def tsDesc (a b : SurveyRow) : Prop := b.timestamp ≤ a.timestamp

instance : DecidableRel tsDesc :=
  fun a b => inferInstanceAs (Decidable (b.timestamp ≤ a.timestamp))

instance : IsTotal SurveyRow tsDesc := ⟨fun a b => Nat.le_total b.timestamp a.timestamp⟩

instance : IsTrans SurveyRow tsDesc := ⟨fun _ _ _ h1 h2 => Nat.le_trans h2 h1⟩

/-- `SELECT * FROM survey_responses ORDER BY timestamp DESC`. -/
def rowsByTimestampDesc (db : DB) : List SurveyRow :=
  List.insertionSort tsDesc db.rows

/-- One element of the `/api/responses` JSON array: the row with `q2`
reconstructed into a list. -/
structure RespView : Type where
  id : Nat
  q1 : PyStr
  q2 : List PyStr
  portal_rating : PyStr
  llm_rating : PyStr
  q4 : PyStr
  q5 : PyStr
  has_improvements : Nat
  improvements : PyStr
  timestamp : Nat
deriving DecidableEq

/-- The per-row conversion in `get_responses`: split `q2` on commas when
it is non-empty, else the empty list. -/
def toView (r : SurveyRow) : RespView :=
  { id := r.id
    q1 := r.q1
    q2 := if r.q2 = [] then [] else r.q2.splitOn ','
    portal_rating := r.portal_rating
    llm_rating := r.llm_rating
    q4 := r.q4
    q5 := r.q5
    has_improvements := r.has_improvements
    improvements := r.improvements
    timestamp := r.timestamp }

/-- The `/api/responses` endpoint: all rows, newest first, with `q2`
reconstructed. -/
def get_responses (db : DB) : List RespView :=
  (rowsByTimestampDesc db).map toView

/-- `SELECT field, COUNT(*) ... GROUP BY field`: each distinct value of
the field paired with its number of occurrences. -/
def groupCounts (key : SurveyRow → PyStr) (rows : List SurveyRow) : List (PyStr × Nat) :=
  (rows.map key).dedup.map (fun v => (v, (rows.map key).count v))

/-- The comparison underlying `ORDER BY count DESC`. -/
def cntDesc (a b : PyStr × Nat) : Prop := b.2 ≤ a.2

instance : DecidableRel cntDesc :=
  fun a b => inferInstanceAs (Decidable (b.2 ≤ a.2))

instance : IsTotal (PyStr × Nat) cntDesc := ⟨fun a b => Nat.le_total b.2 a.2⟩

instance : IsTrans (PyStr × Nat) cntDesc := ⟨fun _ _ _ h1 h2 => Nat.le_trans h2 h1⟩

/-- `GROUP BY field ORDER BY count DESC`, as used for the q4 and q5
distributions. -/
def orderedCounts (key : SurveyRow → PyStr) (rows : List SurveyRow) : List (PyStr × Nat) :=
  List.insertionSort cntDesc (groupCounts key rows)

/-- The numeric prefix recognised by sqlite when casting text to REAL:
sign, integer digits, optional fractional digits, optional exponent,
after leading whitespace. `hasDigits` records whether any mantissa digit
was found (otherwise the cast yields 0). -/
structure NumScan : Type where
  sgn : Int
  intPart : Nat
  fracPart : Nat
  fracLen : Nat
  expo : Int
  hasDigits : Bool
deriving DecidableEq

/-- Whitespace skipped by sqlite's text-to-number conversion. -/
def isSpaceChar (c : Char) : Bool :=
  decide (c = ' ') || decide (c.toNat = 9) || decide (c.toNat = 10) || decide (c.toNat = 13)

/-- The value of a digit string, most significant digit first. -/
def digitsToNat (ds : List Char) : Nat :=
  ds.foldl (fun a c => 10 * a + (c.toNat - 48)) 0

/-- The exponent part of sqlite's numeric scan: `e`/`E`, an optional
sign, then digits; ignored (treated as 0) when no digits follow. -/
def scanExpo (t : PyStr) : Int :=
  match t with
  | c :: rest =>
      if c = 'e' ∨ c = 'E' then
        match rest with
        | '-' :: ds =>
            if ds.takeWhile Char.isDigit = [] then 0
            else -(digitsToNat (ds.takeWhile Char.isDigit) : Int)
        | '+' :: ds =>
            if ds.takeWhile Char.isDigit = [] then 0
            else (digitsToNat (ds.takeWhile Char.isDigit) : Int)
        | ds =>
            if ds.takeWhile Char.isDigit = [] then 0
            else (digitsToNat (ds.takeWhile Char.isDigit) : Int)
      else 0
  | [] => 0

/-- Scan the longest numeric prefix of a string, sqlite style. -/
def scanNumber (s : PyStr) : NumScan :=
  let t := s.dropWhile isSpaceChar
  let sgnd : Int × PyStr :=
    match t with
    | c :: rest => if c = '-' then (-1, rest) else if c = '+' then (1, rest) else (1, t)
    | [] => (1, t)
  let t1 := sgnd.2
  let d1 := t1.takeWhile Char.isDigit
  let r1 := t1.dropWhile Char.isDigit
  let fr : PyStr × PyStr :=
    match r1 with
    | '.' :: rest => (rest.takeWhile Char.isDigit, rest.dropWhile Char.isDigit)
    | _ => ([], r1)
  let d2 := fr.1
  { sgn := sgnd.1
    intPart := digitsToNat d1
    fracPart := digitsToNat d2
    fracLen := d2.length
    expo := if d1 = [] ∧ d2 = [] then 0 else scanExpo fr.2
    hasDigits := decide (d1 ≠ []) || decide (d2 ≠ []) }

/-- `CAST(text AS REAL)` in sqlite: the value of the longest numeric
prefix, or 0 when the text does not start with a number. -/
def sqliteCastReal (s : PyStr) : ℚ :=
  let p := scanNumber s
  if p.hasDigits then
    (p.sgn : ℚ) * ((p.intPart : ℚ) + (p.fracPart : ℚ) / (10 : ℚ) ^ p.fracLen) * (10 : ℚ) ^ p.expo
  else 0

/-- SQL `AVG` over a list of values: `NULL` (here `none`) on the empty
list, otherwise the arithmetic mean. -/
def sqlAvg (qs : List ℚ) : Option ℚ :=
  if qs = [] then none else some (qs.sum / qs.length)

/-- Python `x or 0` applied to the fetched average (`None` becomes 0; a
stored 0 stays 0). -/
def orZero : Option ℚ → ℚ
  | none => 0
  | some v => v

/-- Round-half-to-even of a rational to an integer, as Python `round`
does on exact values. -/
def roundHalfEven (q : ℚ) : Int :=
  let f : Int := q.num.fdiv q.den
  let r : ℚ := q - (f : ℚ)
  if r < 1/2 then f else if (1/2 : ℚ) < r then f + 1 else if f % 2 = 0 then f else f + 1

/-- Python `round(x, 1)` on an exact rational. -/
def pyRound1 (q : ℚ) : ℚ := (roundHalfEven (10 * q) : ℚ) / 10

/-- The values averaged by `AVG(CAST(field AS REAL))` in `get_stats`:
the cast of each row whose field is non-empty (the SQL
`WHERE field != "" AND field IS NOT NULL`).  Note the SQL filter does
not require the value to be numeric: a non-numeric value is cast to its
numeric prefix (0 when there is none) and still counts in the
denominator. -/
def qualifyingCasts (key : SurveyRow → PyStr) (rows : List SurveyRow) : List ℚ :=
  (rows.filter (fun r => decide (key r ≠ []))).map (fun r => sqliteCastReal (key r))

/-- `round(float((AVG ... ) or 0), 1)` applied to the qualifying casts. -/
def avgRatingSql (key : SurveyRow → PyStr) (rows : List SurveyRow) : ℚ :=
  pyRound1 (orZero (sqlAvg (qualifyingCasts key rows)))

/-- Lower-case a string, as Python `str.lower` does on ASCII. -/
def lowerStr (s : PyStr) : PyStr := s.map Char.toLower

/-- Python `needle in hay` on strings: substring containment. -/
def containsSub (needle hay : PyStr) : Bool :=
  hay.tails.any (fun t => needle.isPrefixOf t)

/-- The JSON object returned by `/api/stats`.  The two `improvements*`
fields model the `has_improvements` yes/no object, which the code
computes by substring-matching `'improvements'` against the distinct q4
values. -/
structure Stats : Type where
  total_responses : Nat
  q1_distribution : List (PyStr × Nat)
  avg_portal : ℚ
  avg_llm : ℚ
  q4_distribution : List (PyStr × Nat)
  q5_distribution : List (PyStr × Nat)
  improvementsYes : Nat
  improvementsNo : Int
deriving DecidableEq

/-- The `/api/stats` endpoint. -/
def get_stats (db : DB) : Stats :=
  let q4d := orderedCounts (fun r => r.q4) db.rows
  let yes := (q4d.map Prod.fst).countP
    (fun k => containsSub (pstr "improvements") (lowerStr k))
  { total_responses := db.rows.length
    q1_distribution := groupCounts (fun r => r.q1) db.rows
    avg_portal := avgRatingSql (fun r => r.portal_rating) db.rows
    avg_llm := avgRatingSql (fun r => r.llm_rating) db.rows
    q4_distribution := q4d
    q5_distribution := orderedCounts (fun r => r.q5) db.rows
    improvementsYes := yes
    improvementsNo := (db.rows.length : Int) - yes }

/-- The column header row written by `export_csv`, in the fixed order of
the table schema. -/
def csvColumns : List PyStr :=
  [pstr "id", pstr "q1", pstr "q2", pstr "portal_rating", pstr "llm_rating",
   pstr "q4", pstr "q5", pstr "has_improvements", pstr "improvements", pstr "timestamp"]

/-- The cells of one exported row: every column's raw stored value (the
integers rendered in decimal by the csv writer, `q2` kept as its single
delimited string). -/
def rowCells (r : SurveyRow) : List PyStr :=
  [natStr r.id, r.q1, r.q2, r.portal_rating, r.llm_rating, r.q4, r.q5,
   natStr r.has_improvements, r.improvements, natStr r.timestamp]

/-- The `/api/export/csv` endpoint, modelled at the level of its rows of
cells: the header row followed by one row per stored record, newest
first. -/
def export_csv (db : DB) : List (List PyStr) :=
  csvColumns :: (rowsByTimestampDesc db).map rowCells

/-- Outcome of the DELETE endpoint. -/
inductive ClearOutcome : Type where
  | cleared
  | unauthorized
deriving DecidableEq

/-- The configured admin secret checked by `delete_responses`. -/
def adminPassword : PyStr := pstr "admin123"

/-- The DELETE `/api/responses` endpoint: with the right password the
table is emptied (the `AUTOINCREMENT` counter survives), with any other
password (or none) the request is rejected and nothing changes. -/
def delete_responses (password : Option PyStr) (db : DB) : ClearOutcome × DB :=
  if password = some adminPassword then (.cleared, { rows := [], seq := db.seq })
  else (.unauthorized, db)

/-- A state-changing operation against the store. -/
inductive Op : Type where
  | submit (data : Payload) (now : Nat)
  | clear (password : Option PyStr)

/-- The database after one operation. -/
def applyOp (db : DB) : Op → DB
  | .submit data now => (submit_survey data now db).2
  | .clear pw => (delete_responses pw db).2

/-- The id assigned by one operation, when it is a successful
submission. -/
def opNewId (db : DB) : Op → Option Nat
  | .submit data now =>
      match (submit_survey data now db).1 with
      | .ok i => some i
      | .badRequest _ => none
      | .serverError => none
  | .clear _ => none

/-- The ids assigned by the successful submissions of a sequence of
operations, in order. -/
def assignedIds (db : DB) : List Op → List Nat
  | [] => []
  | op :: ops =>
      match opNewId db op with
      | some i => i :: assignedIds (applyOp db op) ops
      | none => assignedIds (applyOp db op) ops

/-! ### Helper lemmas -/

/-- `find?` returns the first element satisfying the predicate: the list
splits around the hit, with everything before it failing the predicate. -/
lemma find_first_split {α : Type} (p : α → Bool) (l : List α) (f : α)
    (h : l.find? p = some f) :
    ∃ pre post, l = pre ++ f :: post ∧ (∀ g ∈ pre, p g = false) ∧ p f = true := by
  induction l with
  | nil => simp at h
  | cons a t ih =>
      by_cases hpa : p a = true
      · rw [List.find?_cons_of_pos _ hpa] at h
        obtain rfl := Option.some.inj h
        exact ⟨[], t, rfl, by simp, hpa⟩
      · rw [List.find?_cons_of_neg _ (by simpa using hpa)] at h
        obtain ⟨pre, post, rfl, hpre, hpf⟩ := ih h
        refine ⟨a :: pre, post, rfl, ?_, hpf⟩
        intro g hg
        rcases List.mem_cons.mp hg with rfl | hg2
        · simpa using hpa
        · exact hpre g hg2

/-- Extracting string elements succeeds on a list of string values. -/
lemma strElems_map_str (xs : List PyStr) : strElems (xs.map JVal.str) = some xs := by
  induction xs with
  | nil => rfl
  | cons a t ih => simp [strElems, ih]

/-- Unfolding of comma-joining on a list with at least two elements. -/
lemma intercalate_comma_cons_cons (a b : PyStr) (t : List PyStr) :
    [(',' : Char)].intercalate (a :: b :: t) =
      a ++ ',' :: [(',' : Char)].intercalate (b :: t) := by
  simp [List.intercalate, List.intersperse_cons_cons]

/-- Comma-joining a non-empty list of non-empty strings is non-empty. -/
lemma intercalate_comma_ne_nil (xs : List PyStr) (hne : xs ≠ [])
    (h1 : ∀ s ∈ xs, s ≠ []) : [(',' : Char)].intercalate xs ≠ [] := by
  cases xs with
  | nil => exact absurd rfl hne
  | cons a t =>
      cases t with
      | nil => simpa [List.intercalate] using h1 a (by simp)
      | cons b t' => simp [intercalate_comma_cons_cons]

/-! ### Sample inputs used by witnesses and counterexamples -/

/-- A payload missing `q2` while the other required fields are present
and non-empty. -/
def payMissingQ2 : Payload :=
  [(pstr "q1", JVal.str (pstr "portal")), (pstr "q4", JVal.str (pstr "test")),
   (pstr "q5", JVal.str (pstr "definitely"))]

/-- A fully valid payload whose `q2` is the three-element list of the
spec's round-trip example. -/
def payFull : Payload :=
  [(pstr "q1", JVal.str (pstr "portal")),
   (pstr "q2", JVal.arr [JVal.str (pstr "fast"), JVal.str (pstr "clear"),
     JVal.str (pstr "accurate")]),
   (pstr "q4", JVal.str (pstr "test")), (pstr "q5", JVal.str (pstr "definitely")),
   (pstr "portal_rating", JVal.str (pstr "7")), (pstr "llm_rating", JVal.str (pstr "9"))]

/-- A database holding one row, used to exercise the clear endpoint. -/
def dbOne : DB :=
  ⟨[{ id := 1, q1 := pstr "portal", q2 := pstr "fast,clear",
      portal_rating := pstr "7", llm_rating := pstr "9", q4 := pstr "test",
      q5 := pstr "definitely", has_improvements := 0, improvements := [],
      timestamp := 10 }], 1⟩

/-! ### Claims -/

/-- C1: for every submission payload in which one of the required fields
q1, q2, q4, q5 is absent or empty (Python-falsy, which for the strings
and lists this API carries means empty), `submit_survey` fails with a
validation error naming the first such field in check order, and the
store is unchanged, so no record is persisted and the record count is
unchanged; when all four are present and non-empty, validation passes
(the outcome is never a validation error). -/
theorem C1_required_field_validation (data : Payload) (db : DB) (now : Nat) :
    ((∃ f ∈ requiredFields, fieldBad data f = true) →
      ∃ pre f post, requiredFields = pre ++ f :: post ∧
        (∀ g ∈ pre, fieldBad data g = false) ∧ fieldBad data f = true ∧
        submit_survey data now db =
          (SubmitOutcome.badRequest (pstr "Missing required field: " ++ f), db)) ∧
    ((∀ f ∈ requiredFields, fieldBad data f = false) →
      ∀ m, (submit_survey data now db).1 ≠ SubmitOutcome.badRequest m) := by
  constructor
  · intro hex
    have hs : (requiredFields.find? (fieldBad data)).isSome := by
      rw [List.find?_isSome]
      simpa using hex
    obtain ⟨f, hf⟩ := Option.isSome_iff_exists.mp hs
    obtain ⟨pre, post, heq, hpre, hpf⟩ := find_first_split _ _ _ hf
    exact ⟨pre, f, post, heq, hpre, hpf, by simp [submit_survey, hf]⟩
  · intro hall m
    have hn : requiredFields.find? (fieldBad data) = none :=
      List.find?_eq_none.mpr (fun x hx => by simp [hall x hx])
    rcases h2 : pget data (pstr "q2") with _ | v2
    · simp [submit_survey, hn, h2]
    · rcases h3 : q2ToString v2 with _ | s
      · simp [submit_survey, hn, h2, h3]
      · simp [submit_survey, hn, h2, h3]

/-- Witness for C1: the payload without `q2` is rejected with the
message naming it, and the fully valid payload is not rejected. -/
theorem C1_required_field_validation_witness :
    (∃ pre f post, requiredFields = pre ++ f :: post ∧
      (∀ g ∈ pre, fieldBad payMissingQ2 g = false) ∧ fieldBad payMissingQ2 f = true ∧
      submit_survey payMissingQ2 0 initDb =
        (SubmitOutcome.badRequest (pstr "Missing required field: " ++ f), initDb)) ∧
    (∀ m, (submit_survey payFull 0 initDb).1 ≠ SubmitOutcome.badRequest m) :=
  ⟨(C1_required_field_validation payMissingQ2 initDb 0).1 (by decide),
   (C1_required_field_validation payFull initDb 0).2 (by decide)⟩

/-- C2: submitting a payload whose `q2` is a non-empty list of non-empty
strings containing no comma (the delimiter), with the other required
fields present and non-empty, succeeds, and a subsequent `get_responses`
contains a record whose reconstructed `q2` is exactly the submitted
sequence, order and content preserved. -/
theorem C2_q2_round_trip (data : Payload) (db : DB) (now : Nat) (xs : List PyStr)
    (hq2 : pget data (pstr "q2") = some (JVal.arr (xs.map JVal.str)))
    (hne : xs ≠ [])
    (helem : ∀ s ∈ xs, s ≠ [] ∧ (',' : Char) ∉ s)
    (hq1 : fieldBad data (pstr "q1") = false)
    (hq4 : fieldBad data (pstr "q4") = false)
    (hq5 : fieldBad data (pstr "q5") = false) :
    (submit_survey data now db).1 = SubmitOutcome.ok (db.seq + 1) ∧
    ∃ v ∈ get_responses (submit_survey data now db).2,
      v.id = db.seq + 1 ∧ v.q2 = xs := by
  have hq2bad : fieldBad data (pstr "q2") = false := by
    rw [fieldBad, hq2]
    cases xs with
    | nil => exact absurd rfl hne
    | cons a t => simp [truthy]
  have hn : requiredFields.find? (fieldBad data) = none := by
    refine List.find?_eq_none.mpr ?_
    intro x hx
    simp only [requiredFields, List.mem_cons, List.not_mem_nil, or_false] at hx
    rcases hx with rfl | rfl | rfl | rfl
    · simp [hq1]
    · simp [hq2bad]
    · simp [hq4]
    · simp [hq5]
  have hq2str : q2ToString (JVal.arr (xs.map JVal.str)) =
      some ([(',' : Char)].intercalate xs) := by
    simp [q2ToString, strElems_map_str]
  have hsub : submit_survey data now db =
      (SubmitOutcome.ok (db.seq + 1),
        ⟨db.rows ++
          [{ id := db.seq + 1, q1 := strField data (pstr "q1"),
             q2 := [(',' : Char)].intercalate xs,
             portal_rating := strField data (pstr "portal_rating"),
             llm_rating := strField data (pstr "llm_rating"),
             q4 := strField data (pstr "q4"), q5 := strField data (pstr "q5"),
             has_improvements := hasImpFlag data,
             improvements := strField data (pstr "improvements"),
             timestamp := now }], db.seq + 1⟩) := by
    simp [submit_survey, hn, hq2, hq2str]
  rw [hsub]
  refine ⟨rfl, ?_⟩
  have hq2ne : [(',' : Char)].intercalate xs ≠ [] :=
    intercalate_comma_ne_nil xs hne (fun s hs => (helem s hs).1)
  refine ⟨toView { id := db.seq + 1, q1 := strField data (pstr "q1"),
                   q2 := [(',' : Char)].intercalate xs,
                   portal_rating := strField data (pstr "portal_rating"),
                   llm_rating := strField data (pstr "llm_rating"),
                   q4 := strField data (pstr "q4"),
                   q5 := strField data (pstr "q5"),
                   has_improvements := hasImpFlag data,
                   improvements := strField data (pstr "improvements"),
                   timestamp := now }, ?_, rfl, ?_⟩
  · refine List.mem_map_of_mem toView ?_
    refine (List.Perm.mem_iff (List.perm_insertionSort tsDesc _)).mpr ?_
    simp
  · show (if [(',' : Char)].intercalate xs = [] then []
        else ([(',' : Char)].intercalate xs).splitOn ',') = xs
    rw [if_neg hq2ne]
    exact List.splitOn_intercalate xs ',' (fun l hl => (helem l hl).2) hne

/-- Witness for C2: the spec's example `q2 = [fast, clear, accurate]`
round-trips through submission and `get_responses`. -/
theorem C2_q2_round_trip_witness :
    (submit_survey payFull 5 initDb).1 = SubmitOutcome.ok (initDb.seq + 1) ∧
    ∃ v ∈ get_responses (submit_survey payFull 5 initDb).2,
      v.id = initDb.seq + 1 ∧
      v.q2 = [pstr "fast", pstr "clear", pstr "accurate"] :=
  C2_q2_round_trip payFull initDb 5 [pstr "fast", pstr "clear", pstr "accurate"]
    rfl (by decide) (by decide) (by decide) (by decide) (by decide)

/-- C4: clearing with the configured secret deletes all records, after
which `get_responses` is empty and the total is 0; clearing with any
other token (or none) reports unauthorized and leaves the store
unchanged. -/
theorem C4_clear_requires_token (db : DB) (password : Option PyStr) :
    (password = some adminPassword →
      delete_responses password db = (ClearOutcome.cleared, ⟨[], db.seq⟩) ∧
      get_responses (delete_responses password db).2 = [] ∧
      (get_stats (delete_responses password db).2).total_responses = 0) ∧
    (password ≠ some adminPassword →
      delete_responses password db = (ClearOutcome.unauthorized, db)) := by
  constructor
  · intro h
    refine ⟨by simp [delete_responses, h], ?_, ?_⟩
    · simp [delete_responses, h, get_responses, rowsByTimestampDesc, List.insertionSort]
    · simp [delete_responses, h, get_stats]
  · intro h
    simp [delete_responses, h]

/-- Witness for C4: on a one-row store the right password clears
everything and a wrong password changes nothing. -/
theorem C4_clear_requires_token_witness :
    (delete_responses (some adminPassword) dbOne = (ClearOutcome.cleared, ⟨[], dbOne.seq⟩) ∧
     get_responses (delete_responses (some adminPassword) dbOne).2 = [] ∧
     (get_stats (delete_responses (some adminPassword) dbOne).2).total_responses = 0) ∧
    delete_responses (some (pstr "nope")) dbOne = (ClearOutcome.unauthorized, dbOne) :=
  ⟨(C4_clear_requires_token dbOne (some adminPassword)).1 rfl,
   (C4_clear_requires_token dbOne (some (pstr "nope"))).2 (by decide)⟩

/-- Membership in a `GROUP BY` result: exactly the distinct values of the
field, each with its occurrence count. -/
lemma mem_groupCounts (key : SurveyRow → PyStr) (rows : List SurveyRow)
    (v : PyStr) (c : Nat) :
    (v, c) ∈ groupCounts key rows ↔
      v ∈ rows.map key ∧ c = (rows.map key).count v := by
  simp only [groupCounts, List.mem_map, List.mem_dedup, Prod.mk.injEq]
  constructor
  · rintro ⟨u, hu, rfl, rfl⟩
    exact ⟨hu, rfl⟩
  · rintro ⟨hv, rfl⟩
    exact ⟨v, hv, rfl, rfl⟩

/-- Membership in an ordered `GROUP BY` result is the same mapping. -/
lemma mem_orderedCounts (key : SurveyRow → PyStr) (rows : List SurveyRow)
    (v : PyStr) (c : Nat) :
    (v, c) ∈ orderedCounts key rows ↔
      v ∈ rows.map key ∧ c = (rows.map key).count v := by
  rw [orderedCounts, (List.perm_insertionSort cntDesc _).mem_iff]
  exact mem_groupCounts key rows v c

/-- A row whose q4 value, id and timestamp are given; the other fields are
fixed throughout. -/
def rowWithQ4 (v : String) (i ts : Nat) : SurveyRow :=
  { id := i, q1 := pstr "portal", q2 := pstr "fast", portal_rating := [],
    llm_rating := [], q4 := pstr v, q5 := pstr "definitely",
    has_improvements := 0, improvements := [], timestamp := ts }

/-- A store whose q4 values are test, test, code. -/
def dbC5 : DB := ⟨[rowWithQ4 "test" 1 1, rowWithQ4 "test" 2 2, rowWithQ4 "code" 3 3], 3⟩

/-- C5: for each field among q1, q4, q5 the reported distribution maps
exactly the distinct stored values of that field to their occurrence
counts (nothing else is in the mapping); the q4 and q5 distributions are
ordered by descending count, while the q1 distribution carries no
ordering guarantee; over q4 values test, test, code the q4 distribution
is test ↦ 2 then code ↦ 1, with test first. -/
theorem C5_distribution (db : DB) :
    (∀ v c, (v, c) ∈ (get_stats db).q1_distribution ↔
        (v ∈ db.rows.map (fun r => r.q1) ∧ c = (db.rows.map (fun r => r.q1)).count v)) ∧
    (∀ v c, (v, c) ∈ (get_stats db).q4_distribution ↔
        (v ∈ db.rows.map (fun r => r.q4) ∧ c = (db.rows.map (fun r => r.q4)).count v)) ∧
    (∀ v c, (v, c) ∈ (get_stats db).q5_distribution ↔
        (v ∈ db.rows.map (fun r => r.q5) ∧ c = (db.rows.map (fun r => r.q5)).count v)) ∧
    List.Sorted cntDesc (get_stats db).q4_distribution ∧
    List.Sorted cntDesc (get_stats db).q5_distribution ∧
    (get_stats dbC5).q4_distribution = [(pstr "test", 2), (pstr "code", 1)] := by
  refine ⟨?_, ?_, ?_, ?_, ?_, ?_⟩
  · intro v c
    exact mem_groupCounts (fun r => r.q1) db.rows v c
  · intro v c
    exact mem_orderedCounts (fun r => r.q4) db.rows v c
  · intro v c
    exact mem_orderedCounts (fun r => r.q5) db.rows v c
  · exact List.sorted_insertionSort cntDesc (groupCounts (fun r => r.q4) db.rows)
  · exact List.sorted_insertionSort cntDesc (groupCounts (fun r => r.q5) db.rows)
  · decide

/-- C6: the CSV export is the schema-ordered header row followed by
exactly one row of cells per stored record, newest first (the export rows
are a permutation of the store, sorted by descending timestamp), each row
carrying one raw cell per column with the `q2` cell the single delimited
string as stored. -/
theorem C6_export_rows (db : DB) :
    export_csv db = csvColumns :: (rowsByTimestampDesc db).map rowCells ∧
    List.Perm (rowsByTimestampDesc db) db.rows ∧
    List.Sorted tsDesc (rowsByTimestampDesc db) ∧
    ∀ r : SurveyRow, (rowCells r).length = csvColumns.length ∧
      (rowCells r).get? 2 = some r.q2 := by
  refine ⟨rfl, List.perm_insertionSort tsDesc db.rows,
    List.sorted_insertionSort tsDesc db.rows, ?_⟩
  intro r
  exact ⟨rfl, rfl⟩

/-- The same store with every row's stored `has_improvements` flag forced
to 1; used to show the stats computation ignores that column. -/
def withImpSet (db : DB) : DB :=
  ⟨db.rows.map (fun r => { r with has_improvements := 1 }), db.seq⟩

/-- The yes-count of `get_stats` depends only on the stored q4 values. -/
lemma improvementsYes_only_q4 (dbA dbB : DB)
    (h : dbA.rows.map (fun r => r.q4) = dbB.rows.map (fun r => r.q4)) :
    (get_stats dbA).improvementsYes = (get_stats dbB).improvementsYes := by
  have hoc : orderedCounts (fun r => r.q4) dbA.rows =
      orderedCounts (fun r => r.q4) dbB.rows := by
    rw [orderedCounts, orderedCounts, groupCounts, groupCounts, h]
  show ((orderedCounts (fun r => r.q4) dbA.rows).map Prod.fst).countP
      (fun k => containsSub (pstr "improvements") (lowerStr k)) =
    ((orderedCounts (fun r => r.q4) dbB.rows).map Prod.fst).countP
      (fun k => containsSub (pstr "improvements") (lowerStr k))
  rw [hoc]

/-- C8: the stats yes/no counts for `has_improvements` are computed by
substring-matching `improvements` against the distinct q4 values (the q4
distribution keys), not by reading the stored `has_improvements` column
(forcing that column to 1 in every row changes nothing); consequently,
whenever no distinct q4 value contains the substring, yes is 0 and no
equals the total record count. -/
theorem C8_improvements_counted_from_q4 (db : DB) :
    (get_stats db).improvementsYes =
      ((get_stats db).q4_distribution.map Prod.fst).countP
        (fun k => containsSub (pstr "improvements") (lowerStr k)) ∧
    (get_stats db).improvementsNo =
      ((get_stats db).total_responses : Int) - ((get_stats db).improvementsYes : Int) ∧
    (get_stats (withImpSet db)).improvementsYes = (get_stats db).improvementsYes ∧
    ((∀ k ∈ (get_stats db).q4_distribution.map Prod.fst,
        containsSub (pstr "improvements") (lowerStr k) = false) →
      (get_stats db).improvementsYes = 0 ∧
      (get_stats db).improvementsNo = ((get_stats db).total_responses : Int)) := by
  refine ⟨rfl, rfl, ?_, ?_⟩
  · refine improvementsYes_only_q4 (withImpSet db) db ?_
    simp only [withImpSet, List.map_map]
    rfl
  · intro hall
    have h0 : (get_stats db).improvementsYes = 0 :=
      List.countP_eq_zero.mpr (fun k hk => by simp [hall k hk])
    refine ⟨h0, ?_⟩
    rw [show (get_stats db).improvementsNo =
      ((get_stats db).total_responses : Int) - ((get_stats db).improvementsYes : Int)
      from rfl, h0]
    simp

/-! ### C9: id assignment across operation sequences -/

/-- The sequence counter never decreases under any operation. -/
lemma applyOp_seq_le (db : DB) (op : Op) : db.seq ≤ (applyOp db op).seq := by
  cases op with
  | submit data now =>
      show db.seq ≤ (submit_survey data now db).2.seq
      rcases hf : requiredFields.find? (fieldBad data) with _ | f
      · rcases h2 : pget data (pstr "q2") with _ | v2
        · simp [submit_survey, hf, h2]
        · rcases h3 : q2ToString v2 with _ | s
          · simp [submit_survey, hf, h2, h3]
          · simp [submit_survey, hf, h2, h3]
      · simp [submit_survey, hf]
  | clear pw =>
      show db.seq ≤ (delete_responses pw db).2.seq
      by_cases h : pw = some adminPassword
      · simp [delete_responses, h]
      · simp [delete_responses, h]

/-- A successful submission assigns the id `seq + 1` and advances the
counter to it. -/
lemma opNewId_some (db : DB) (op : Op) (j : Nat) (h : opNewId db op = some j) :
    j = db.seq + 1 ∧ (applyOp db op).seq = db.seq + 1 := by
  cases op with
  | submit data now =>
      rcases hf : requiredFields.find? (fieldBad data) with _ | f
      · rcases h2 : pget data (pstr "q2") with _ | v2
        · simp [opNewId, submit_survey, hf, h2] at h
        · rcases h3 : q2ToString v2 with _ | s
          · simp [opNewId, submit_survey, hf, h2, h3] at h
          · simp only [opNewId, submit_survey, hf, h2, h3] at h
            obtain rfl := Option.some.inj h
            exact ⟨rfl, by simp [applyOp, submit_survey, hf, h2, h3]⟩
      · simp [opNewId, submit_survey, hf] at h
  | clear pw => simp [opNewId] at h

/-- Every id assigned during a run strictly exceeds the starting
counter. -/
lemma assignedIds_gt_seq (ops : List Op) :
    ∀ db : DB, ∀ i ∈ assignedIds db ops, db.seq < i := by
  induction ops with
  | nil => intro db i hi; simp [assignedIds] at hi
  | cons op ops ih =>
      intro db i hi
      rcases hn : opNewId db op with _ | j
      · rw [assignedIds, hn] at hi
        exact Nat.lt_of_le_of_lt (applyOp_seq_le db op) (ih (applyOp db op) i hi)
      · rw [assignedIds, hn] at hi
        rcases List.mem_cons.mp hi with rfl | hi2
        · exact (opNewId_some db op i hn).1 ▸ Nat.lt_succ_self db.seq
        · have h2 := ih (applyOp db op) i hi2
          have h3 := (opNewId_some db op j hn).2
          omega

/-- The assigned ids of any run are strictly increasing in order. -/
lemma assignedIds_pairwise (ops : List Op) :
    ∀ db : DB, List.Pairwise (fun i j => i < j) (assignedIds db ops) := by
  induction ops with
  | nil => intro db; simp [assignedIds]
  | cons op ops ih =>
      intro db
      rcases hn : opNewId db op with _ | j
      · rw [assignedIds, hn]
        exact ih (applyOp db op)
      · rw [assignedIds, hn]
        refine List.Pairwise.cons ?_ (ih (applyOp db op))
        intro i hi
        have h2 := assignedIds_gt_seq ops (applyOp db op) i hi
        have h3 := opNewId_some db op j hn
        omega

/-- C9: across every sequence of operations (submissions, valid or not,
and clears, authorized or not) starting from any store state, the ids
assigned to successful submissions are strictly increasing in creation
order and unique — `DELETE` does not reset the `AUTOINCREMENT` counter,
so the guarantee also holds across `clear()`. -/
theorem C9_ids_unique_monotone (db : DB) (ops : List Op) :
    List.Pairwise (fun i j => i < j) (assignedIds db ops) ∧
    (assignedIds db ops).Nodup :=
  ⟨assignedIds_pairwise ops db,
   (assignedIds_pairwise ops db).imp (fun h => Nat.ne_of_lt h)⟩

/-! ### C3: average ratings -/

/-- A string that is entirely a decimal number: an optional sign, digits
with at most one decimal point, nothing else, and at least one digit.
Used only to state the spec's notion of a numeric rating. -/
def isNumericStr (s : PyStr) : Bool :=
  let t1 : PyStr :=
    match s with
    | c :: rest => if c = '-' ∨ c = '+' then rest else s
    | [] => []
  let d1 := t1.takeWhile Char.isDigit
  let r1 := t1.dropWhile Char.isDigit
  let fr : PyStr × PyStr :=
    match r1 with
    | '.' :: rest => (rest.takeWhile Char.isDigit, rest.dropWhile Char.isDigit)
    | _ => ([], r1)
  (decide (d1 ≠ []) || decide (fr.1 ≠ [])) && decide (fr.2 = []) && decide (s ≠ [])

/-- Modelled from the claim's words for C3: the mean over exactly the
records where the field is non-empty AND numeric, parsed as a real
number, rounded to one decimal place, 0 when no record qualifies.  This
is the spec-side definition to compare `avgRatingSql` against. -/
def avgRatingClaim (vals : List PyStr) : ℚ :=
  let qs := (vals.filter (fun v => decide (v ≠ []) && isNumericStr v)).map sqliteCastReal
  if qs = [] then 0 else pyRound1 (qs.sum / qs.length)

/-- A row whose portal rating, id and timestamp are given; the other
fields are fixed throughout. -/
def rowWithPR (v : String) (i : Nat) : SurveyRow :=
  { id := i, q1 := pstr "portal", q2 := pstr "fast", portal_rating := pstr v,
    llm_rating := [], q4 := pstr "test", q5 := pstr "definitely",
    has_improvements := 0, improvements := [], timestamp := i }

/-- A store with portal ratings 7, 9 and the non-numeric string abc. -/
def dbC3 : DB := ⟨[rowWithPR "7" 1, rowWithPR "9" 2, rowWithPR "abc" 3], 3⟩

/-- A store with portal ratings 7, 9 and the empty string. -/
def dbC3b : DB := ⟨[rowWithPR "7" 1, rowWithPR "9" 2, rowWithPR "" 3], 3⟩

lemma castReal_seven : sqliteCastReal (pstr "7") = 7 := by
  rw [sqliteCastReal, show scanNumber (pstr "7") = ⟨1, 7, 0, 0, 0, true⟩ from by decide]
  norm_num

lemma castReal_nine : sqliteCastReal (pstr "9") = 9 := by
  rw [sqliteCastReal, show scanNumber (pstr "9") = ⟨1, 9, 0, 0, 0, true⟩ from by decide]
  norm_num

lemma castReal_abc : sqliteCastReal (pstr "abc") = 0 := by
  rw [sqliteCastReal, show scanNumber (pstr "abc") = ⟨1, 0, 0, 0, 0, false⟩ from by decide]
  norm_num

/-- C3 counterexample: over portal ratings 7, 9, abc the code averages
the sqlite casts of all three non-empty values, getting
round(16/3, 1) = 5.3, while the claim's numeric-only average is 8.0 —
the non-numeric record is not excluded by the code, refuting the claim
at this store. -/
theorem C3_average_rating_counterexample :
    (get_stats dbC3).avg_portal = 53 / 10 ∧
    avgRatingClaim (dbC3.rows.map (fun r => r.portal_rating)) = 8 ∧
    (53 / 10 : ℚ) ≠ 8 := by
  refine ⟨?_, ?_, by norm_num⟩
  · show avgRatingSql (fun r => r.portal_rating) dbC3.rows = 53 / 10
    have hq : qualifyingCasts (fun r => r.portal_rating) dbC3.rows =
        [sqliteCastReal (pstr "7"), sqliteCastReal (pstr "9"),
         sqliteCastReal (pstr "abc")] := rfl
    rw [avgRatingSql, hq, castReal_seven, castReal_nine, castReal_abc]
    rw [show sqlAvg [(7 : ℚ), 9, 0] = some ((7 + 9 + 0) / 3) by
      rw [sqlAvg, if_neg (by simp)]; norm_num]
    show pyRound1 ((7 + 9 + 0) / 3) = 53 / 10
    norm_num [pyRound1, roundHalfEven, Int.fdiv]
  · have hf : (dbC3.rows.map (fun r => r.portal_rating)).filter
        (fun v => decide (v ≠ []) && isNumericStr v) = [pstr "7", pstr "9"] := by
      decide
    rw [avgRatingClaim]
    rw [hf]
    rw [List.map_cons, List.map_cons, List.map_nil, castReal_seven, castReal_nine]
    rw [if_neg (by simp)]
    norm_num [pyRound1, roundHalfEven, Int.fdiv]

/-- The code's average equals the claim's shape with the numeric-only
filter dropped: mean of the casts of the non-empty values, rounded,
0 when none qualify. -/
lemma avgRatingSql_eq (key : SurveyRow → PyStr) (rows : List SurveyRow) :
    avgRatingSql key rows =
      (if qualifyingCasts key rows = [] then 0
       else pyRound1 ((qualifyingCasts key rows).sum / (qualifyingCasts key rows).length)) := by
  by_cases h : qualifyingCasts key rows = []
  · rw [avgRatingSql, sqlAvg, if_pos h, if_pos h]
    show pyRound1 (orZero none) = 0
    norm_num [orZero, pyRound1, roundHalfEven, Int.fdiv]
  · rw [avgRatingSql, sqlAvg, if_neg h, if_neg h]
    rfl

/-- C3 (amended): for both rating fields, the reported average is the
mean of the sqlite REAL casts over exactly the records whose field is
non-empty, rounded to one decimal place — records with empty values are
excluded from numerator and denominator, but non-empty non-numeric
values are included as the cast of their numeric prefix (0 when there is
none); the result is 0 when no record qualifies, and over ratings
7, 9, empty it is 8.0 (the empty value excluded). -/
theorem C3_average_rating_amended (db : DB) :
    (get_stats db).avg_portal =
      (if qualifyingCasts (fun r => r.portal_rating) db.rows = [] then 0
       else pyRound1 ((qualifyingCasts (fun r => r.portal_rating) db.rows).sum /
         (qualifyingCasts (fun r => r.portal_rating) db.rows).length)) ∧
    (get_stats db).avg_llm =
      (if qualifyingCasts (fun r => r.llm_rating) db.rows = [] then 0
       else pyRound1 ((qualifyingCasts (fun r => r.llm_rating) db.rows).sum /
         (qualifyingCasts (fun r => r.llm_rating) db.rows).length)) ∧
    (get_stats initDb).avg_portal = 0 ∧
    (get_stats dbC3b).avg_portal = 8 := by
  refine ⟨avgRatingSql_eq _ _, avgRatingSql_eq _ _, ?_, ?_⟩
  · show avgRatingSql (fun r => r.portal_rating) initDb.rows = 0
    rw [avgRatingSql]
    show pyRound1 (orZero (sqlAvg [])) = 0
    norm_num [sqlAvg, orZero, pyRound1, roundHalfEven, Int.fdiv]
  · show avgRatingSql (fun r => r.portal_rating) dbC3b.rows = 8
    have hq : qualifyingCasts (fun r => r.portal_rating) dbC3b.rows =
        [sqliteCastReal (pstr "7"), sqliteCastReal (pstr "9")] := rfl
    rw [avgRatingSql, hq, castReal_seven, castReal_nine]
    rw [show sqlAvg [(7 : ℚ), 9] = some ((7 + 9) / 2) by
      rw [sqlAvg, if_neg (by simp)]; norm_num]
    show pyRound1 ((7 + 9) / 2) = 8
    norm_num [pyRound1, roundHalfEven, Int.fdiv]

/-! ### C7: the stored has_improvements flag -/

/-- A payload with non-empty improvements text but no `has_improvements`
key. -/
def payC7 : Payload :=
  [(pstr "q1", JVal.str (pstr "portal")), (pstr "q2", JVal.str (pstr "fast")),
   (pstr "q4", JVal.str (pstr "test")), (pstr "q5", JVal.str (pstr "definitely")),
   (pstr "improvements", JVal.str (pstr "add dark mode"))]

/-- The same payload with an explicit truthy `has_improvements` flag. -/
def payC7b : Payload :=
  [(pstr "q1", JVal.str (pstr "portal")), (pstr "q2", JVal.str (pstr "fast")),
   (pstr "q4", JVal.str (pstr "test")), (pstr "q5", JVal.str (pstr "definitely")),
   (pstr "improvements", JVal.str (pstr "add dark mode")),
   (pstr "has_improvements", JVal.bool true)]

/-- C7 counterexample: a submission carrying non-empty improvements text
but no `has_improvements` payload field is accepted and stored with
`has_improvements = 0`, although the claim says the stored boolean is
derived from the presence of the free-text improvements and so would be
true here. -/
theorem C7_counterexample :
    (submit_survey payC7 1 initDb).1 = SubmitOutcome.ok 1 ∧
    ∃ r ∈ (submit_survey payC7 1 initDb).2.rows,
      r.improvements = pstr "add dark mode" ∧ r.has_improvements = 0 := by
  decide

/-- The stored flag is 1 exactly when the payload carries a truthy
`has_improvements` value. -/
lemma hasImpFlag_eq_one (data : Payload) :
    hasImpFlag data = 1 ↔
      ∃ v, pget data (pstr "has_improvements") = some v ∧ truthy v = true := by
  rw [hasImpFlag]
  rcases h : pget data (pstr "has_improvements") with _ | v
  · simp
  · by_cases ht : truthy v = true
    · simp [ht]
    · simp [ht]

/-- C7 (amended): the stored `has_improvements` boolean is derived from
the payload's `has_improvements` field, not from the improvements text:
every accepted submission appends one row whose flag is 1 exactly when
the payload carries a truthy `has_improvements` value, and 0 otherwise
— independent of the improvements text. -/
theorem C7_has_improvements_from_flag (data : Payload) (db : DB) (now : Nat) (i : Nat)
    (h : (submit_survey data now db).1 = SubmitOutcome.ok i) :
    ∃ row : SurveyRow, (submit_survey data now db).2.rows = db.rows ++ [row] ∧
      row.has_improvements = hasImpFlag data ∧
      (row.has_improvements = 1 ↔
        ∃ v, pget data (pstr "has_improvements") = some v ∧ truthy v = true) ∧
      (row.has_improvements = 0 ∨ row.has_improvements = 1) := by
  rcases hf : requiredFields.find? (fieldBad data) with _ | f
  · rcases h2 : pget data (pstr "q2") with _ | v2
    · simp [submit_survey, hf, h2] at h
    · rcases h3 : q2ToString v2 with _ | s
      · simp [submit_survey, hf, h2, h3] at h
      · have hsub : (submit_survey data now db).2.rows = db.rows ++
            [{ id := db.seq + 1, q1 := strField data (pstr "q1"), q2 := s,
               portal_rating := strField data (pstr "portal_rating"),
               llm_rating := strField data (pstr "llm_rating"),
               q4 := strField data (pstr "q4"), q5 := strField data (pstr "q5"),
               has_improvements := hasImpFlag data,
               improvements := strField data (pstr "improvements"),
               timestamp := now }] := by
          simp [submit_survey, hf, h2, h3]
        refine ⟨_, hsub, rfl, hasImpFlag_eq_one data, ?_⟩
        show hasImpFlag data = 0 ∨ hasImpFlag data = 1
        rw [hasImpFlag]
        rcases pget data (pstr "has_improvements") with _ | v
        · exact Or.inl rfl
        · by_cases ht : truthy v = true
          · exact Or.inr (by simp [ht])
          · exact Or.inl (by simp [ht])
  · simp [submit_survey, hf] at h

/-- Witness for the amended C7: with an explicit truthy flag the stored
row has flag 1, matching the payload field. -/
theorem C7_has_improvements_from_flag_witness :
    ∃ row : SurveyRow, (submit_survey payC7b 2 initDb).2.rows = initDb.rows ++ [row] ∧
      row.has_improvements = hasImpFlag payC7b ∧
      (row.has_improvements = 1 ↔
        ∃ v, pget payC7b (pstr "has_improvements") = some v ∧ truthy v = true) ∧
      (row.has_improvements = 0 ∨ row.has_improvements = 1) :=
  C7_has_improvements_from_flag payC7b initDb 2 1 (by decide)

/-! ### C10: str coercion of payload values -/

/-- C10: a submission whose required fields are present and truthy
passes validation even when their JSON values are not strings, and every
persisted field is the Python `str` rendering of the payload value
(`portal_rating`, `llm_rating` and `improvements` likewise when
present); a non-list `q2` is stored as its string rendering, unsplit. -/
theorem C10_str_coercion (data : Payload) (db : DB) (now : Nat) (v1 v2 v4 v5 : JVal)
    (h1 : pget data (pstr "q1") = some v1) (t1 : truthy v1 = true)
    (h2 : pget data (pstr "q2") = some v2) (t2 : truthy v2 = true)
    (hnl : ∀ xs, v2 ≠ JVal.arr xs)
    (h4 : pget data (pstr "q4") = some v4) (t4 : truthy v4 = true)
    (h5 : pget data (pstr "q5") = some v5) (t5 : truthy v5 = true) :
    ∃ row : SurveyRow,
      submit_survey data now db = (SubmitOutcome.ok (db.seq + 1),
        ⟨db.rows ++ [row], db.seq + 1⟩) ∧
      row.q1 = pyStr v1 ∧ row.q2 = pyStr v2 ∧ row.q4 = pyStr v4 ∧ row.q5 = pyStr v5 ∧
      (∀ v, pget data (pstr "portal_rating") = some v → row.portal_rating = pyStr v) ∧
      (∀ v, pget data (pstr "llm_rating") = some v → row.llm_rating = pyStr v) ∧
      (∀ v, pget data (pstr "improvements") = some v → row.improvements = pyStr v) := by
  have hb1 : fieldBad data (pstr "q1") = false := by rw [fieldBad, h1]; simp [t1]
  have hb2 : fieldBad data (pstr "q2") = false := by rw [fieldBad, h2]; simp [t2]
  have hb4 : fieldBad data (pstr "q4") = false := by rw [fieldBad, h4]; simp [t4]
  have hb5 : fieldBad data (pstr "q5") = false := by rw [fieldBad, h5]; simp [t5]
  have hn : requiredFields.find? (fieldBad data) = none := by
    refine List.find?_eq_none.mpr ?_
    intro x hx
    simp only [requiredFields, List.mem_cons, List.not_mem_nil, or_false] at hx
    rcases hx with rfl | rfl | rfl | rfl
    · simp [hb1]
    · simp [hb2]
    · simp [hb4]
    · simp [hb5]
  have hq2str : q2ToString v2 = some (pyStr v2) := by
    cases v2 with
    | null => simp [truthy] at t2
    | bool b => rfl
    | num n => rfl
    | str s => rfl
    | arr xs => exact absurd rfl (hnl xs)
  refine ⟨{ id := db.seq + 1, q1 := strField data (pstr "q1"), q2 := pyStr v2,
            portal_rating := strField data (pstr "portal_rating"),
            llm_rating := strField data (pstr "llm_rating"),
            q4 := strField data (pstr "q4"), q5 := strField data (pstr "q5"),
            has_improvements := hasImpFlag data,
            improvements := strField data (pstr "improvements"),
            timestamp := now }, ?_, ?_, rfl, ?_, ?_, ?_, ?_, ?_⟩
  · simp [submit_survey, hn, h2, hq2str]
  · show strField data (pstr "q1") = pyStr v1
    rw [strField, h1]
  · show strField data (pstr "q4") = pyStr v4
    rw [strField, h4]
  · show strField data (pstr "q5") = pyStr v5
    rw [strField, h5]
  · intro v hv
    show strField data (pstr "portal_rating") = pyStr v
    rw [strField, hv]
  · intro v hv
    show strField data (pstr "llm_rating") = pyStr v
    rw [strField, hv]
  · intro v hv
    show strField data (pstr "improvements") = pyStr v
    rw [strField, hv]

/-- A payload whose required values are a number, a number, a boolean
and a string, with a list-valued optional rating. -/
def payC10 : Payload :=
  [(pstr "q1", JVal.num 5), (pstr "q2", JVal.num 42), (pstr "q4", JVal.bool true),
   (pstr "q5", JVal.str (pstr "yes")),
   (pstr "portal_rating", JVal.arr [JVal.str (pstr "a")])]

/-- Witness for C10: the non-string payload is accepted and stored
via `str` coercions. -/
theorem C10_str_coercion_witness :
    ∃ row : SurveyRow,
      submit_survey payC10 3 initDb = (SubmitOutcome.ok (initDb.seq + 1),
        ⟨initDb.rows ++ [row], initDb.seq + 1⟩) ∧
      row.q1 = pyStr (JVal.num 5) ∧ row.q2 = pyStr (JVal.num 42) ∧
      row.q4 = pyStr (JVal.bool true) ∧ row.q5 = pyStr (JVal.str (pstr "yes")) ∧
      (∀ v, pget payC10 (pstr "portal_rating") = some v → row.portal_rating = pyStr v) ∧
      (∀ v, pget payC10 (pstr "llm_rating") = some v → row.llm_rating = pyStr v) ∧
      (∀ v, pget payC10 (pstr "improvements") = some v → row.improvements = pyStr v) :=
  C10_str_coercion payC10 initDb 3 (JVal.num 5) (JVal.num 42) (JVal.bool true)
    (JVal.str (pstr "yes")) rfl (by decide) rfl (by decide)
    (fun xs h => JVal.noConfusion h) rfl (by decide) rfl (by decide)

end MySurvey
